import Mathlib

/-!
Shallow embedding of the identify_playstation2_games pipeline
(identify_playstation2_games.py and read_udf.py): the orchestrator
candidate sanitization and database lookup, the binary scanner
_find_in_binary, and the UDF reader pieces (DescriptorTag parsing,
is_valid_udf, get_sector_size, FileContentBuffer).

Bytes are modelled as Nat (Python bytes elements are 0..255; the byte
operations below are faithful on that range and total on Nat), byte
strings as List Nat, fallible code as Except PyErr.
-/

namespace PS2

/-- Error kinds: each constructor stands for one exception raise site of the
Python source (Exception, NotImplementedError, AttributeError). -/
inductive PyErr where
  | notSupportedFile
  | notFoundInDatabase
  | attributeError
  | notImplemented
  | bufferTooSmall
  | unknownTagIdentifier
  | checksumMismatch
  | reservedNotZero
  | noSectorSize
  | extentFlagsNotZero
  deriving DecidableEq, Repr

/-- Byte-wise ASCII uppercase: what Python bytes.upper() does to each byte
(maps a..z to A..Z, leaves every other byte unchanged). -/
def upperByte (b : Nat) : Nat := if 97 ≤ b ∧ b ≤ 122 then b - 32 else b

/-- Byte-level effect of replacing underscore bytes with dashes, the second
replace call of line 217: 0x5F becomes 0x2D. -/
def underToDash (b : Nat) : Nat := if b = 95 then 45 else b

/-- ASCII code points of a string literal, as a byte list. -/
def bytesOf (s : String) : List Nat := s.data.map Char.toNat

/-- Candidate sanitization of get_playstation2_game_info (line 217):
uppercase each byte, then remove every 0x2E dot byte, then turn every 0x5F
underscore byte into a 0x2D dash, in that order. -/
def sanitizeSerial (e : List Nat) : List Nat :=
  ((e.map upperByte).filter (fun b => b ≠ 46)).map underToDash

lemma upperByte_upperByte (b : Nat) : upperByte (upperByte b) = upperByte b := by
  unfold upperByte
  split_ifs <;> omega

lemma upperByte_underToDash (b : Nat) :
    upperByte (underToDash (upperByte b)) = underToDash (upperByte b) := by
  unfold upperByte underToDash
  split_ifs <;> omega

lemma underToDash_underToDash (b : Nat) :
    underToDash (underToDash b) = underToDash b := by
  unfold underToDash
  split_ifs <;> omega

lemma underToDash_ne_46 (b : Nat) (h : b ≠ 46) : underToDash b ≠ 46 := by
  unfold underToDash
  split_ifs <;> omega

/-- Unfolding of sanitizeSerial on a cons cell. -/
lemma sanitizeSerial_cons (b : Nat) (s : List Nat) :
    sanitizeSerial (b :: s) =
      if upperByte b = 46 then sanitizeSerial s
      else underToDash (upperByte b) :: sanitizeSerial s := by
  unfold sanitizeSerial
  by_cases h : upperByte b = 46 <;> simp [h]

/-- C9: the sanitization is idempotent. -/
theorem sanitizeSerial_idem (s : List Nat) :
    sanitizeSerial (sanitizeSerial s) = sanitizeSerial s := by
  induction s with
  | nil => rfl
  | cons b s ih =>
    rw [sanitizeSerial_cons]
    by_cases h : upperByte b = 46
    · simp [h, ih]
    · simp only [h, if_false]
      rw [sanitizeSerial_cons, upperByte_underToDash]
      have h46 : underToDash (upperByte b) ≠ 46 := underToDash_ne_46 _ h
      simp only [h46, if_false, underToDash_underToDash, ih]

/-- Serial-number prefix table PREFIXES (lines 42-96), in source order.
Note the single mixed-case entry Sierra. -/
def PREFIXES : List (List Nat) :=
  [bytesOf "SLPM", bytesOf "SLES", bytesOf "SCES", bytesOf "SLUS",
   bytesOf "SLPS", bytesOf "SCUS", bytesOf "SCPS", bytesOf "SCAJ",
   bytesOf "SLKA", bytesOf "SCKA", bytesOf "SLAJ", bytesOf "NPJD",
   bytesOf "TCPS", bytesOf "KOEI", bytesOf "NPUD", bytesOf "ALCH",
   bytesOf "PBGP", bytesOf "NPED", bytesOf "CPCS", bytesOf "FVGK",
   bytesOf "SCED", bytesOf "NPJC", bytesOf "GN", bytesOf "GUST",
   bytesOf "HSN", bytesOf "SLED", bytesOf "DMP", bytesOf "INCH",
   bytesOf "PBPX", bytesOf "KAD", bytesOf "SLPN", bytesOf "TCES",
   bytesOf "NPUC", bytesOf "DESR", bytesOf "PAPX", bytesOf "PBPS",
   bytesOf "PCPX", bytesOf "ROSE", bytesOf "SRPM", bytesOf "SCEE",
   bytesOf "HAKU", bytesOf "GER", bytesOf "HKID", bytesOf "MPR",
   bytesOf "GWS", bytesOf "HKHS", bytesOf "NS", bytesOf "XSPL",
   bytesOf "Sierra", bytesOf "ARZE", bytesOf "VUGJ", bytesOf "VO",
   bytesOf "WFLD"]

/-- Record returned by get_playstation2_game_info (lines 248-253). -/
structure GameInfo where
  serial_number : List Nat
  region : String
  title : String
  disc_type : String
  deriving DecidableEq, Repr

/-- The six region databases, assoc lists from serial byte string to title,
in the fixed lookup order of the source: as, au, eu, jp, ko, us. -/
structure Databases where
  db_as : List (List Nat × String)
  db_au : List (List Nat × String)
  db_eu : List (List Nat × String)
  db_jp : List (List Nat × String)
  db_ko : List (List Nat × String)
  db_us : List (List Nat × String)
  deriving DecidableEq, Repr

/-- Database lookup chain of get_playstation2_game_info (lines 224-242):
first hit in order as, au, eu, jp, ko, us wins, paired with its region name. -/
def lookupDatabases (dbs : Databases) (serial : List Nat) : Option (String × String) :=
  match dbs.db_as.lookup serial with
  | some t => some ("Asia", t)
  | none =>
  match dbs.db_au.lookup serial with
  | some t => some ("Australia", t)
  | none =>
  match dbs.db_eu.lookup serial with
  | some t => some ("Europe", t)
  | none =>
  match dbs.db_jp.lookup serial with
  | some t => some ("Japan", t)
  | none =>
  match dbs.db_ko.lookup serial with
  | some t => some ("Korea", t)
  | none =>
  match dbs.db_us.lookup serial with
  | some t => some ("USA", t)
  | none => none

/-- First segment of the serial number split on dash bytes (line 220). -/
def splitHead (s : List Nat) : List Nat := s.takeWhile (fun b => b ≠ 45)

/-- Candidate loop of get_playstation2_game_info (lines 214-255).  Each entry
is an Option because the binary path can put None into the list (line 207);
sub_entry.upper() on None raises AttributeError.  A candidate is sanitized,
skipped when its first dash segment is not in PREFIXES, looked up in the six
databases, skipped when title or region is falsy, and otherwise returned with
the disc type; an exhausted list raises the final
Exception("Failed to find game in database."). -/
def processEntries (dbs : Databases) (discType : String) :
    List (Option (List Nat)) → Except PyErr GameInfo
  | [] => .error .notFoundInDatabase
  | none :: _ => .error .attributeError
  | some e :: rest =>
    if splitHead (sanitizeSerial e) ∈ PREFIXES then
      match lookupDatabases dbs (sanitizeSerial e) with
      | none => processEntries dbs discType rest
      | some (region, title) =>
        if title = "" then processEntries dbs discType rest
        else .ok ⟨sanitizeSerial e, region, title, discType⟩
    else processEntries dbs discType rest

lemma sanitizeSerial_append (l1 l2 : List Nat) :
    sanitizeSerial (l1 ++ l2) = sanitizeSerial l1 ++ sanitizeSerial l2 := by
  simp [sanitizeSerial, List.filter_append]

lemma splitHead_append_dash (l x : List Nat) (h : ∀ b ∈ l, b ≠ 45) :
    splitHead (l ++ 45 :: x) = l := by
  unfold splitHead
  induction l with
  | nil =>
    rw [List.nil_append, List.takeWhile_cons_of_neg]
    simp
  | cons a l ih =>
    have ha : a ≠ 45 := h a (List.mem_cons_self a l)
    rw [List.cons_append, List.takeWhile_cons_of_pos (by simp [ha]),
      ih (fun b hb => h b (List.mem_cons_of_mem a hb))]

/-- Databases for the C1 counterexample: only the US table is non-empty and it
holds exactly the canonical serial SLUS-20101, as the region database files
hold canonical serials. -/
def c1dbs : Databases :=
  ⟨[], [], [], [], [], [(bytesOf "SLUS-20101", "Example Title")]⟩

/-- C1 counterexample: for the on-disc UDF file identifier SLUS_201.01;1 the
sanitization of the orchestrator keeps the trailing version segment, producing
SLUS-20101;1, so although the databases hold the canonical SLUS-20101 (second
conjunct), the run fails with the not-found error instead of returning
serial_number SLUS-20101 as the claim states. -/
theorem c1_counterexample :
    sanitizeSerial (bytesOf "SLUS_201.01;1") = bytesOf "SLUS-20101;1" ∧
    lookupDatabases c1dbs (bytesOf "SLUS-20101") = some ("USA", "Example Title") ∧
    processEntries c1dbs "DVD" [some (bytesOf "SLUS_201.01;1")] =
      .error .notFoundInDatabase :=
  ⟨by decide, by decide, rfl⟩

/-- C1 (amended): get_playstation2_game_info canonicalizes a candidate by
uppercasing, dropping dots, and replacing underscores with dashes, but does
not drop a trailing semicolon version segment; the database lookup is performed on that
sanitized form and it is returned verbatim as serial_number, so an on-disc
form with dots and a version suffix resolves only against a database key
that itself retains the version suffix. -/
theorem c1_amended (e : List Nat) (dbs : Databases) (dt : String)
    (rest : List (Option (List Nat)))
    (hp : splitHead (sanitizeSerial e) ∈ PREFIXES)
    (r t : String)
    (hl : lookupDatabases dbs (sanitizeSerial e) = some (r, t))
    (ht : ¬ t = "") :
    processEntries dbs dt (some e :: rest) =
      .ok ⟨sanitizeSerial e, r, t, dt⟩ := by
  simp [processEntries, hp, hl, ht]

/-- Databases whose US table holds the ;1-suffixed key, the only key shape the
sanitized on-disc form can hit. -/
def c1dbsAmended : Databases :=
  ⟨[], [], [], [], [], [(bytesOf "SLUS-20101;1", "Example Title")]⟩

/-- Witness for c1_amended at the concrete on-disc identifier SLUS_201.01;1:
the lookup key and the returned serial_number are SLUS-20101;1. -/
theorem c1_amended_witness :
    processEntries c1dbsAmended "DVD" [some (bytesOf "SLUS_201.01;1")] =
      .ok ⟨bytesOf "SLUS-20101;1", "USA", "Example Title", "DVD"⟩ := by
  have h := c1_amended (bytesOf "SLUS_201.01;1") c1dbsAmended "DVD" []
    (by decide) "USA" "Example Title" (by decide) (by decide)
  rw [h]
  rfl

/-- C10: Sierra is in the prefix table but its uppercased form SIERRA is
not, so every candidate of the form Sierra, separator byte (dash 45 or
underscore 95), rest (which covers every hit the case-sensitive binary
scanner can return for this table entry, since the scanner does not
uppercase) is skipped by the orchestrator:
processing such an entry is the same as processing the remaining entries, for
every database, so no result is ever returned for it. -/
theorem c10_sierra (sep : Nat) (tail : List Nat)
    (hsep : sep = 45 ∨ sep = 95) (dbs : Databases) (dt : String)
    (rest : List (Option (List Nat))) :
    bytesOf "Sierra" ∈ PREFIXES ∧ bytesOf "SIERRA" ∉ PREFIXES ∧
    processEntries dbs dt (some (bytesOf "Sierra" ++ sep :: tail) :: rest) =
      processEntries dbs dt rest := by
  refine ⟨by decide, by decide, ?_⟩
  have hu : upperByte sep = sep := by
    unfold upperByte
    rcases hsep with h | h <;> rw [h] <;> rfl
  have hne : upperByte sep ≠ 46 := by
    rw [hu]; rcases hsep with h | h <;> omega
  have hd : underToDash (upperByte sep) = 45 := by
    rw [hu]; unfold underToDash
    rcases hsep with h | h <;> rw [h] <;> rfl
  have h1 : sanitizeSerial (bytesOf "Sierra" ++ sep :: tail) =
      bytesOf "SIERRA" ++ 45 :: sanitizeSerial tail := by
    rw [sanitizeSerial_append, sanitizeSerial_cons, if_neg hne, hd]
    congr 1
  have h2 : splitHead (sanitizeSerial (bytesOf "Sierra" ++ sep :: tail)) =
      bytesOf "SIERRA" := by
    rw [h1]
    exact splitHead_append_dash _ _ (by decide)
  have h3 : splitHead (sanitizeSerial (bytesOf "Sierra" ++ sep :: tail)) ∉ PREFIXES := by
    rw [h2]; decide
  simp only [processEntries, if_neg h3]

/-- Witness for c10_sierra at the concrete scanner-shaped hit Sierra-12345. -/
theorem c10_sierra_witness :
    bytesOf "Sierra" ∈ PREFIXES ∧ bytesOf "SIERRA" ∉ PREFIXES ∧
    processEntries c1dbs "Binary" [some (bytesOf "Sierra-12345")] =
      processEntries c1dbs "Binary" [] := by
  have h := c10_sierra 45 (bytesOf "12345") (Or.inl rfl) c1dbs "Binary" []
  exact h

/-- Read-buffer size of the binary scanner (line 37): 10 MiB. -/
def BUFFER_SIZE : Nat := 1024 * 1024 * 10

/-- Rewind amount of the binary scanner (line 38). -/
def MAX_PREFIX_LEN : Nat := 6

/-- Membership of the one-byte character class between the regex literal
and the digits: underscore, pipe or dash (the pipe is a literal inside a
regex character class). -/
def isSepByte (b : Nat) : Bool := b == 95 || b == 124 || b == 45

/-- Membership of the repeated character class: an ASCII digit, pipe or dot. -/
def isNumByte (b : Nat) : Bool := (48 ≤ b && b ≤ 57) || b == 124 || b == 46

/-- Match attempt at position i of the buffer for the regex of line 163 with
one table entry substituted: the literal pat, one separator-class byte, a
non-empty maximal run of numeric-class bytes, then a semicolon.  Backtracking
of the greedy repeat cannot shorten the run because the semicolon is not in
the repeated class, so the Python regex matches at i exactly when this
predicate holds. -/
def matchAt (pat buf : List Nat) (i : Nat) : Bool :=
  let rest := buf.drop i
  pat.isPrefixOf rest &&
    match rest.drop pat.length with
    | [] => false
    | sep :: tail =>
      isSepByte sep &&
        (let k := (tail.takeWhile isNumByte).length
         decide (1 ≤ k) && (tail.getD k 0 == 59))

/-- Matched group of a successful matchAt: the literal, the separator byte,
the numeric run and the closing semicolon. -/
def groupAt (pat buf : List Nat) (i : Nat) : List Nat :=
  let tail := buf.drop (i + pat.length + 1)
  let k := (tail.takeWhile isNumByte).length
  pat ++ [buf.getD (i + pat.length) 0] ++ tail.take k ++ [59]

/-- Model of re.search over the buffer for one table entry (line 163): the
leftmost matching position wins; the result is its matched group. -/
def searchPat (pat buf : List Nat) : Option (List Nat) :=
  ((List.range buf.length).find? (fun i => matchAt pat buf i)).map (groupAt pat buf)

/-- Placeholder filter of line 164: does the group contain 999.99 as a
contiguous substring. -/
def contains999 (g : List Nat) : Bool :=
  (List.range (g.length + 1)).any (fun i => (bytesOf "999.99").isPrefixOf (g.drop i))

/-- Serial extraction from a matched group (line 166): remove dot bytes, turn
underscores into dashes, remove semicolon bytes, in that order; note that no
uppercasing happens here. -/
def serialFromGroup (g : List Nat) : List Nat :=
  ((g.filter (fun b => b ≠ 46)).map underToDash).filter (fun b => b ≠ 59)

/-- Scan of one buffer (lines 162-169): the first table entry whose regex
matches with a group free of 999.99 yields the serial; an entry whose only
match holds 999.99 falls through to the next entry of the table. -/
def scanBuffer (buf : List Nat) : Option (List Nat) :=
  PREFIXES.findSome? (fun pat =>
    match searchPat pat buf with
    | some g => if contains999 g then none else some (serialFromGroup g)
    | none => none)

/-- Buffered read loop of _find_in_binary (lines 146-174) with the file
position made explicit: read up to BUFFER_SIZE bytes at pos, return None on
an empty read, otherwise scan the buffer, and continue after seeking back by
MAX_PREFIX_LEN when the post-read position is above MAX_PREFIX_LEN and
strictly before end of file.  The fuel only bounds the iteration count: every
iteration strictly advances the position (a rewound iteration read a full
buffer of BUFFER_SIZE bytes, far above the 6-byte rewind), so any fuel of at
least data.length + 2 makes the model total without changing its value. -/
def findLoop (data : List Nat) : Nat → Nat → Option (List Nat)
  | 0, _ => none
  | fuel + 1, pos =>
    let romData := (data.drop pos).take BUFFER_SIZE
    if romData.isEmpty then none
    else
      let tell := pos + romData.length
      match scanBuffer romData with
      | some serial => some serial
      | none =>
        if MAX_PREFIX_LEN < tell ∧ tell < data.length then
          findLoop data fuel (tell - MAX_PREFIX_LEN)
        else findLoop data fuel tell

/-- Model of _find_in_binary (lines 143-174) on the full file contents. -/
def findInBinary (data : List Nat) : Option (List Nat) :=
  findLoop data (data.length + 2) 0

lemma matchAt_drop (pat buf : List Nat) (i : Nat) :
    matchAt pat buf i = matchAt pat (buf.drop i) 0 := rfl

lemma mem_of_matchAt {pat buf : List Nat} {i : Nat} (h : matchAt pat buf i = true) :
    (59 : Nat) ∈ buf := by
  unfold matchAt at h
  simp only [Bool.and_eq_true] at h
  obtain ⟨hpre, hrest⟩ := h
  cases hc : (buf.drop i).drop pat.length with
  | nil => rw [hc] at hrest; simp at hrest
  | cons sep tail =>
    rw [hc] at hrest
    simp only [Bool.and_eq_true, decide_eq_true_eq, beq_iff_eq] at hrest
    obtain ⟨hsep, hk, hgd⟩ := hrest
    by_cases hlen : (tail.takeWhile isNumByte).length < tail.length
    · have hmem : (59 : Nat) ∈ tail := by
        rw [← hgd, List.getD_eq_getElem _ _ hlen]
        exact List.getElem_mem hlen
      have h1 : (59 : Nat) ∈ sep :: tail := List.mem_cons_of_mem _ hmem
      rw [← hc] at h1
      exact List.drop_subset _ _ (List.drop_subset _ _ h1)
    · push_neg at hlen
      rw [List.getD_eq_default _ _ hlen] at hgd
      omega

lemma searchPat_eq_none {pat buf : List Nat} (h : (59 : Nat) ∉ buf) :
    searchPat pat buf = none := by
  have hf : (List.range buf.length).find? (fun i => matchAt pat buf i) = none :=
    List.find?_eq_none.mpr (fun i _ hm => h (mem_of_matchAt hm))
  unfold searchPat
  rw [hf]
  rfl

lemma scanBuffer_eq_none {buf : List Nat} (h : (59 : Nat) ∉ buf) :
    scanBuffer buf = none := by
  unfold scanBuffer
  rw [List.findSome?_eq_none_iff]
  intro pat _
  rw [searchPat_eq_none h]

lemma findLoop_step_empty (data : List Nat) (fuel pos : Nat) (h : data.length ≤ pos) :
    findLoop data (fuel + 1) pos = none := by
  rw [findLoop]
  simp [List.drop_eq_nil_of_le h]

lemma findLoop_step_none (data : List Nat) (fuel pos : Nat) (buf : List Nat)
    (hbuf : (data.drop pos).take BUFFER_SIZE = buf)
    (hne : buf ≠ [])
    (hscan : scanBuffer buf = none) :
    findLoop data (fuel + 1) pos =
      if MAX_PREFIX_LEN < pos + buf.length ∧ pos + buf.length < data.length then
        findLoop data fuel (pos + buf.length - MAX_PREFIX_LEN)
      else findLoop data fuel (pos + buf.length) := by
  rw [findLoop]
  simp only [hbuf, hscan]
  rw [if_neg]
  simp [List.isEmpty_iff, hne]

lemma findLoop_step_some (data : List Nat) (fuel pos : Nat) (buf s : List Nat)
    (hbuf : (data.drop pos).take BUFFER_SIZE = buf)
    (hne : buf ≠ [])
    (hscan : scanBuffer buf = some s) :
    findLoop data (fuel + 1) pos = some s := by
  rw [findLoop]
  simp only [hbuf, hscan]
  rw [if_neg]
  simp [List.isEmpty_iff, hne]

/-- Scanner input for the C2 scenario: the only regex match in the file is
the placeholder serial SLUS_999.99 with surrounding junk. -/
def c2data : List Nat := bytesOf "xxSLUS_999.99;1yy"

/-- C2: on a file whose only potential match holds 999.99, the scanner
rejects it and yields no serial (first three conjuncts), so the orchestrator
puts None into the candidate list and the candidate loop fails with
AttributeError from sub_entry.upper(), which is a different error from the
claimed final Exception("Failed to find game in database."). -/
theorem c2_placeholder_crash :
    searchPat (bytesOf "SLUS") c2data = some (bytesOf "SLUS_999.99;") ∧
    contains999 (bytesOf "SLUS_999.99;") = true ∧
    findInBinary c2data = none ∧
    processEntries c1dbs "Binary" [findInBinary c2data] = .error .attributeError ∧
    PyErr.attributeError ≠ PyErr.notFoundInDatabase := by
  refine ⟨by decide, by decide, by decide, ?_, by decide⟩
  rw [show findInBinary c2data = none from by decide]
  rfl

/-- File of the C8 counterexample: a 12-byte serial occurrence starting 8
bytes before the first 10 MiB buffer boundary, zero bytes elsewhere, two
trailing zero bytes so that the file extends past the boundary. -/
def c8missData : List Nat :=
  List.replicate (BUFFER_SIZE - 8) 0 ++ (bytesOf "SLUS_201.01;" ++ [0, 0])

/-- File of the amended C8 statement: the same 12-byte serial occurrence, now
starting exactly MAX_PREFIX_LEN = 6 bytes before the buffer boundary. -/
def c8hitData : List Nat :=
  List.replicate (BUFFER_SIZE - 6) 0 ++ bytesOf "SLUS_201.01;"

lemma c8miss_len : c8missData.length = BUFFER_SIZE + 6 := by
  unfold c8missData
  rw [List.length_append, List.length_replicate, List.length_append]
  have h8 : (8 : Nat) ≤ BUFFER_SIZE := by decide
  have h12 : (bytesOf "SLUS_201.01;").length = 12 := by decide
  have h2 : ([0, 0] : List Nat).length = 2 := by decide
  omega

lemma c8miss_buf1 : c8missData.take BUFFER_SIZE =
    List.replicate (BUFFER_SIZE - 8) 0 ++ bytesOf "SLUS_201" := by
  unfold c8missData
  rw [List.take_append_eq_append_take, List.length_replicate,
    List.take_of_length_le (by rw [List.length_replicate]; omega)]
  congr 1

lemma c8miss_buf1_len :
    (List.replicate (BUFFER_SIZE - 8) (0 : Nat) ++ bytesOf "SLUS_201").length =
      BUFFER_SIZE := by
  rw [List.length_append, List.length_replicate]
  have h8 : (8 : Nat) ≤ BUFFER_SIZE := by decide
  have : (bytesOf "SLUS_201").length = 8 := by decide
  omega

lemma c8miss_buf1_no_semi :
    (59 : Nat) ∉ List.replicate (BUFFER_SIZE - 8) (0 : Nat) ++ bytesOf "SLUS_201" := by
  intro h
  rcases List.mem_append.mp h with h | h
  · have := List.eq_of_mem_replicate h; omega
  · revert h; decide

lemma c8miss_buf2 : c8missData.drop (BUFFER_SIZE - 6) = bytesOf "US_201.01;" ++ [0, 0] := by
  unfold c8missData
  rw [List.drop_append_eq_append_drop, List.length_replicate,
    List.drop_eq_nil_of_le (by rw [List.length_replicate]; omega), List.nil_append,
    show BUFFER_SIZE - 6 - (BUFFER_SIZE - 8) = 2 from by decide]
  decide

/-- C8 counterexample: in c8missData the serial occurrence at position
BUFFER_SIZE - 8 matches the scanner regex (first conjunct) and straddles the
first 10 MiB buffer boundary (second and third conjuncts: the occurrence
spans the 12 bytes from BUFFER_SIZE - 8 to BUFFER_SIZE + 4), yet
_find_in_binary misses it and returns None: the 6-byte rewind leaves the
continuation buffer starting at BUFFER_SIZE - 6, two bytes into the
occurrence, so neither buffer holds the whole match. -/
theorem c8_counterexample :
    matchAt (bytesOf "SLUS") c8missData (BUFFER_SIZE - 8) = true ∧
    BUFFER_SIZE - 8 < BUFFER_SIZE ∧ BUFFER_SIZE < BUFFER_SIZE - 8 + 12 ∧
    findInBinary c8missData = none := by
  have hB : (14 : Nat) ≤ BUFFER_SIZE := by decide
  refine ⟨?_, by decide, by decide, ?_⟩
  · have hdrop : c8missData.drop (BUFFER_SIZE - 8) = bytesOf "SLUS_201.01;" ++ [0, 0] := by
      unfold c8missData
      rw [List.drop_append_eq_append_drop, List.length_replicate,
        List.drop_eq_nil_of_le (by rw [List.length_replicate]),
        List.nil_append, Nat.sub_self]
      rfl
    rw [matchAt_drop, hdrop]
    decide
  · unfold findInBinary
    rw [c8miss_len, show BUFFER_SIZE + 6 + 2 = (BUFFER_SIZE + 7) + 1 from by omega]
    rw [findLoop_step_none c8missData (BUFFER_SIZE + 7) 0 _
      (by rw [List.drop_zero]; exact c8miss_buf1) (by
        intro hnil
        have hl := c8miss_buf1_len
        rw [hnil] at hl
        exact absurd hl (by decide)) (scanBuffer_eq_none c8miss_buf1_no_semi)]
    rw [c8miss_buf1_len, c8miss_len]
    rw [if_pos (by constructor <;> [decide; omega])]
    rw [show (0 : Nat) + BUFFER_SIZE - MAX_PREFIX_LEN = BUFFER_SIZE - 6 from by
      rw [Nat.zero_add]; rfl]
    rw [show BUFFER_SIZE + 7 = (BUFFER_SIZE + 6) + 1 from by omega]
    rw [findLoop_step_none c8missData (BUFFER_SIZE + 6) (BUFFER_SIZE - 6)
      (bytesOf "US_201.01;" ++ [0, 0])
      (by rw [c8miss_buf2]; exact List.take_of_length_le (by decide))
      (by decide) (by decide)]
    rw [if_neg (by
      rw [c8miss_len]
      have h12 : (bytesOf "US_201.01;" ++ [0, 0] : List Nat).length = 12 := by decide
      rw [h12]
      omega)]
    rw [show BUFFER_SIZE - 6 + (bytesOf "US_201.01;" ++ [0, 0] : List Nat).length =
      BUFFER_SIZE + 6 from by
      have h12 : (bytesOf "US_201.01;" ++ [0, 0] : List Nat).length = 12 := by decide
      rw [h12]; omega]
    rw [show BUFFER_SIZE + 6 = (BUFFER_SIZE + 5) + 1 from by omega]
    exact findLoop_step_empty c8missData (BUFFER_SIZE + 5) (BUFFER_SIZE + 6)
      (by rw [c8miss_len])

lemma c8hit_len : c8hitData.length = BUFFER_SIZE + 6 := by
  unfold c8hitData
  rw [List.length_append, List.length_replicate]
  have h6 : (6 : Nat) ≤ BUFFER_SIZE := by decide
  have h12 : (bytesOf "SLUS_201.01;").length = 12 := by decide
  omega

lemma c8hit_buf1 : c8hitData.take BUFFER_SIZE =
    List.replicate (BUFFER_SIZE - 6) 0 ++ bytesOf "SLUS_2" := by
  unfold c8hitData
  rw [List.take_append_eq_append_take, List.length_replicate,
    List.take_of_length_le (by rw [List.length_replicate]; omega)]
  congr 1

lemma c8hit_buf1_len :
    (List.replicate (BUFFER_SIZE - 6) (0 : Nat) ++ bytesOf "SLUS_2").length =
      BUFFER_SIZE := by
  rw [List.length_append, List.length_replicate]
  have h6 : (6 : Nat) ≤ BUFFER_SIZE := by decide
  have : (bytesOf "SLUS_2").length = 6 := by decide
  omega

lemma c8hit_buf1_no_semi :
    (59 : Nat) ∉ List.replicate (BUFFER_SIZE - 6) (0 : Nat) ++ bytesOf "SLUS_2" := by
  intro h
  rcases List.mem_append.mp h with h | h
  · have := List.eq_of_mem_replicate h; omega
  · revert h; decide

lemma c8hit_buf2 : c8hitData.drop (BUFFER_SIZE - 6) = bytesOf "SLUS_201.01;" := by
  unfold c8hitData
  rw [List.drop_append_eq_append_drop, List.length_replicate,
    List.drop_eq_nil_of_le (by rw [List.length_replicate]), List.nil_append,
    Nat.sub_self, List.drop_zero]

/-- C8 (amended): the rewind is only MAX_PREFIX_LEN = 6 bytes, so a serial
occurrence straddling a 10 MiB boundary is guaranteed to land inside one
buffer only when at most 6 of its bytes precede the boundary; in c8hitData
the occurrence starts exactly 6 bytes before the boundary (first three
conjuncts establish the match and the straddle) and _find_in_binary returns
its canonicalized serial, while c8_counterexample shows that the same
occurrence placed 8 bytes before the boundary is missed. -/
theorem c8_amended_hit :
    matchAt (bytesOf "SLUS") c8hitData (BUFFER_SIZE - 6) = true ∧
    BUFFER_SIZE - 6 < BUFFER_SIZE ∧ BUFFER_SIZE < BUFFER_SIZE - 6 + 12 ∧
    findInBinary c8hitData = some (bytesOf "SLUS-20101") := by
  refine ⟨?_, by decide, by decide, ?_⟩
  · rw [matchAt_drop, c8hit_buf2]
    decide
  · unfold findInBinary
    rw [c8hit_len, show BUFFER_SIZE + 6 + 2 = (BUFFER_SIZE + 7) + 1 from by omega]
    rw [findLoop_step_none c8hitData (BUFFER_SIZE + 7) 0 _
      (by rw [List.drop_zero]; exact c8hit_buf1) (by
        intro hnil
        have hl := c8hit_buf1_len
        rw [hnil] at hl
        exact absurd hl (by decide)) (scanBuffer_eq_none c8hit_buf1_no_semi)]
    rw [c8hit_buf1_len, c8hit_len]
    rw [if_pos (by constructor <;> [decide; omega])]
    rw [show (0 : Nat) + BUFFER_SIZE - MAX_PREFIX_LEN = BUFFER_SIZE - 6 from by
      rw [Nat.zero_add]; rfl]
    rw [show BUFFER_SIZE + 7 = (BUFFER_SIZE + 6) + 1 from by omega]
    exact findLoop_step_some c8hitData (BUFFER_SIZE + 6) (BUFFER_SIZE - 6)
      (bytesOf "SLUS_201.01;") (bytesOf "SLUS-20101")
      (by rw [c8hit_buf2]; exact List.take_of_length_le (by decide))
      (by decide) (by decide)

/-- Single-byte read of read_udf.py line 46; the callers guarantee the index
is in range through the BaseTag size assertion, so the Nat default 0 is only
taken at positions the Python code never reaches. -/
def to_uint8 (buf : List Nat) (start : Nat) : Nat := buf.getD start 0

/-- Little-endian 16-bit read of lines 49-52, with the source masks. -/
def to_uint16 (buf : List Nat) (start : Nat) : Nat :=
  ((to_uint8 buf (start + 1) <<< 8) &&& 0xFF00) ||| (to_uint8 buf start &&& 0x00FF)

/-- Little-endian 32-bit read of lines 54-59, with the source masks. -/
def to_uint32 (buf : List Nat) (start : Nat) : Nat :=
  ((to_uint8 buf (start + 3) <<< 24) &&& 0xFF000000) |||
  ((to_uint8 buf (start + 2) <<< 16) &&& 0x00FF0000) |||
  ((to_uint8 buf (start + 1) <<< 8) &&& 0x0000FF00) |||
  (to_uint8 buf start &&& 0x000000FF)

/-- Fields of a 16-byte Descriptor Tag (lines 216-227); the stored reserved
byte is read at offset 5 and checked to be zero but carries no information. -/
structure DescriptorTag where
  tag_identifier : Nat
  descriptor_version : Nat
  tag_check_sum : Nat
  tag_serial_number : Nat
  descriptor_crc : Nat
  descriptor_crc_length : Nat
  tag_location : Nat
  deriving DecidableEq, Repr

/-- Checksum of _assert_checksum (lines 133-147): the sum of the 16 header
bytes skipping byte 4.  The source truncates it with a subtract-256 loop,
which on this sum of 15 bytes (below 16 * 256) is reduction mod 256. -/
def tagChecksum (buf : List Nat) (start : Nat) : Nat :=
  (((List.range 16).filter (fun i => i ≠ 4)).map (fun i => to_uint8 buf (start + i))).sum

/-- DescriptorTag construction (lines 216-234): the BaseTag size assertion
(16 bytes available from start), the unknown-identifier check, the checksum
assertion and the reserved-byte assertion, in source order; every descriptor
tag parse of the UDF pipeline goes through this constructor.  The field reads
are pure, so performing them after the checks is equivalent. -/
def parseDescriptorTag (buf : List Nat) (start : Nat) : Except PyErr DescriptorTag :=
  if buf.length - start < 16 then .error .bufferTooSmall
  else if to_uint16 buf start = 0 then .error .unknownTagIdentifier
  else if tagChecksum buf start % 256 ≠ to_uint8 buf (start + 4) then .error .checksumMismatch
  else if to_uint8 buf (start + 5) ≠ 0 then .error .reservedNotZero
  else .ok {
    tag_identifier := to_uint16 buf start
    descriptor_version := to_uint16 buf (start + 2)
    tag_check_sum := to_uint8 buf (start + 4)
    tag_serial_number := to_uint16 buf (start + 6)
    descriptor_crc := to_uint16 buf (start + 8)
    descriptor_crc_length := to_uint16 buf (start + 10)
    tag_location := to_uint32 buf (start + 12) }

example : parseDescriptorTag [2,0,0,0,3,0,0,0,0,0,0,0,0,1,0,0] 0 =
    .ok ⟨2, 0, 3, 0, 0, 0, 256⟩ := rfl
example : parseDescriptorTag [2,0,0,0,7,0,0,0,0,0,0,0,0,1,0,0] 0 =
    .error .checksumMismatch := rfl

/-- C7: every successfully constructed DescriptorTag satisfies
sum(bytes 0..15 excluding byte 4) mod 256 == tag_check_sum, the stored
byte 4; and whenever that equation fails on the input bytes, construction
raises (returns an error) instead of producing a tag. -/
theorem c7_checksum (buf : List Nat) (start : Nat) :
    (∀ t, parseDescriptorTag buf start = .ok t →
      tagChecksum buf start % 256 = t.tag_check_sum ∧
      t.tag_check_sum = to_uint8 buf (start + 4)) ∧
    (tagChecksum buf start % 256 ≠ to_uint8 buf (start + 4) →
      ∀ t, parseDescriptorTag buf start ≠ .ok t) := by
  unfold parseDescriptorTag
  constructor
  · intro t ht
    split_ifs at ht with h1 h2 h3 h4
    simp only [Except.ok.injEq] at ht
    subst ht
    refine ⟨?_, rfl⟩
    push_neg at h3
    exact h3
  · intro hne t ht
    split_ifs at ht

/-- A 16-byte buffer that parses as a valid Descriptor Tag: identifier 2,
stored checksum 3 (= 2 + 1), tag_location 256. -/
def goodTag16 : List Nat := [2, 0, 0, 0, 3, 0, 0, 0, 0, 0, 0, 0, 0, 1, 0, 0]

/-- The same buffer with the stored checksum corrupted to 7. -/
def badTag16 : List Nat := [2, 0, 0, 0, 7, 0, 0, 0, 0, 0, 0, 0, 0, 1, 0, 0]

/-- Witness for c7_checksum at the two concrete 16-byte buffers. -/
theorem c7_checksum_witness :
    (tagChecksum goodTag16 0 % 256 = 3 ∧ (3 : Nat) = to_uint8 goodTag16 4) ∧
    (∀ t, parseDescriptorTag badTag16 0 ≠ .ok t) := by
  constructor
  · exact (c7_checksum goodTag16 0).1 ⟨2, 0, 3, 0, 0, 0, 256⟩ rfl
  · exact (c7_checksum badTag16 0).2 (by decide)

/-- Size loop of get_sector_size (lines 818-848): for each candidate size,
skip it when the file is too small for 257 sectors, when the 16 bytes at
256 * size fail to parse as a Descriptor Tag, when the parsed tag_location
is not 256, or when the identifier is not AnchorVolumeDescriptorPointer
(= 2); the first surviving size is returned, exhaustion raises. -/
def sectorSizeLoop (file : List Nat) : List Nat → Except PyErr Nat
  | [] => .error .noSectorSize
  | size :: sizes =>
    if file.length < 257 * size then sectorSizeLoop file sizes
    else
      match parseDescriptorTag ((file.drop (256 * size)).take 16) 0 with
      | .error _ => sectorSizeLoop file sizes
      | .ok tag =>
        if tag.tag_location ≠ 256 then sectorSizeLoop file sizes
        else if tag.tag_identifier ≠ 2 then sectorSizeLoop file sizes
        else .ok size

/-- Model of get_sector_size (lines 818-848) with its size order. -/
def get_sector_size (file : List Nat) : Except PyErr Nat :=
  sectorSizeLoop file [4096, 2048, 1024, 512]

/-- Acceptance predicate in the words of claim C5: the file holds at least
257 sectors of this size, the 16 bytes at offset 256 * size parse as a valid
Descriptor Tag, its tag_location equals 256 and its tag identifier equals
AnchorVolumeDescriptorPointer. -/
def sectorSizeAccepts (file : List Nat) (size : Nat) : Bool :=
  decide (257 * size ≤ file.length) &&
    match parseDescriptorTag ((file.drop (256 * size)).take 16) 0 with
    | .ok tag => tag.tag_location == 256 && tag.tag_identifier == 2
    | .error _ => false

/-- C5: get_sector_size returns the first size of the ordered list
[4096, 2048, 1024, 512] accepted by sectorSizeAccepts, and raises (errors)
exactly when no size qualifies. -/
theorem c5_sector_size (file : List Nat) :
    get_sector_size file =
      match [4096, 2048, 1024, 512].find? (sectorSizeAccepts file) with
      | some size => .ok size
      | none => .error .noSectorSize := by
  have hgen : ∀ sizes : List Nat, sectorSizeLoop file sizes =
      match sizes.find? (sectorSizeAccepts file) with
      | some size => .ok size
      | none => .error .noSectorSize := by
    intro sizes
    induction sizes with
    | nil => rfl
    | cons s rest ih =>
      unfold sectorSizeLoop
      by_cases hsmall : file.length < 257 * s
      · have hacc : ¬ sectorSizeAccepts file s = true := by
          unfold sectorSizeAccepts
          simp only [Bool.and_eq_true, decide_eq_true_eq, not_and]
          intro hle
          omega
        rw [if_pos hsmall, ih, List.find?_cons_of_neg _ hacc]
      · rw [if_neg hsmall]
        split
        next e hp =>
          have hacc : ¬ sectorSizeAccepts file s = true := by
            unfold sectorSizeAccepts
            rw [hp]
            simp
          rw [ih, List.find?_cons_of_neg _ hacc]
        next tag hp =>
          by_cases hloc : tag.tag_location = 256
          · by_cases hid : tag.tag_identifier = 2
            · have hacc : sectorSizeAccepts file s = true := by
                unfold sectorSizeAccepts
                rw [hp]
                have hle : 257 * s ≤ file.length := by omega
                simp [hloc, hid, hle]
              rw [if_neg (not_not_intro hloc), if_neg (not_not_intro hid),
                List.find?_cons_of_pos _ hacc]
            · have hacc : ¬ sectorSizeAccepts file s = true := by
                unfold sectorSizeAccepts
                rw [hp]
                simp [hid]
              rw [if_neg (not_not_intro hloc), if_pos hid, ih,
                List.find?_cons_of_neg _ hacc]
          · have hacc : ¬ sectorSizeAccepts file s = true := by
              unfold sectorSizeAccepts
              rw [hp]
              simp [hloc]
            rw [if_pos hloc, ih, List.find?_cons_of_neg _ hacc]
  exact hgen _

/-- Empty header skipped by is_valid_udf: 32 KiB (line 42). -/
def HEADER_SIZE : Nat := 1024 * 32

/-- Hard-coded sector size of is_valid_udf: 2048 bytes (line 43). -/
def SECTOR_SIZE : Nat := 1024 * 2

/-- Standard identifier of a volume structure descriptor sector: bytes 1..5
(line 800). -/
def standardId (sector : List Nat) : List Nat := (sector.drop 1).take 5

/-- Marker tests of lines 804-811, on the standard identifier bytes. -/
def isBeaSector (s : List Nat) : Bool := standardId s == bytesOf "BEA01"

def isNsrSector (s : List Nat) : Bool :=
  standardId s == bytesOf "NSR02" || standardId s == bytesOf "NSR03"

def isTeaSector (s : List Nat) : Bool := standardId s == bytesOf "TEA01"

def isIgnoredSector (s : List Nat) : Bool :=
  standardId s == bytesOf "BOOT2" || standardId s == bytesOf "CD001" ||
    standardId s == bytesOf "CDW02"

/-- A sector whose identifier falls in any branch of lines 804-811 other
than the final unknown one. -/
def isKnownSector (s : List Nat) : Bool :=
  isBeaSector s || isNsrSector s || isTeaSector s || isIgnoredSector s

/-- Sector loop of is_valid_udf (lines 792-815) over the bytes after the
32 KiB header, with the three flags as state: a short read returns the flag
conjunction, a BEA01 or NSR02/NSR03 or TEA01 identifier sets the matching
flag, the ignored markers change nothing, and any other identifier clears
is_valid, which ends the while loop and returns the flag conjunction. -/
def validLoop (l : List Nat) (bea vsd tea : Bool) : Bool :=
  if l.length < SECTOR_SIZE then bea && vsd && tea
  else
    if isBeaSector (l.take SECTOR_SIZE) then validLoop (l.drop SECTOR_SIZE) true vsd tea
    else if isNsrSector (l.take SECTOR_SIZE) then validLoop (l.drop SECTOR_SIZE) bea true tea
    else if isTeaSector (l.take SECTOR_SIZE) then validLoop (l.drop SECTOR_SIZE) bea vsd true
    else if isIgnoredSector (l.take SECTOR_SIZE) then validLoop (l.drop SECTOR_SIZE) bea vsd tea
    else bea && vsd && tea
termination_by l.length
decreasing_by all_goals (simp only [List.length_drop, SECTOR_SIZE] at *; omega)

/-- Model of is_valid_udf (lines 777-815): False outright when the file is
shorter than the 32 KiB header plus one 2048-byte sector, else the sector
scan from offset 32 KiB; the function only ever returns a Bool. -/
def is_valid_udf (file : List Nat) : Bool :=
  if file.length < HEADER_SIZE + SECTOR_SIZE then false
  else validLoop (file.drop HEADER_SIZE) false false false

/-- Successive full 2048-byte sectors of a byte list, written from the claim
wording of C6; a trailing partial sector is not produced. -/
def fullSectors (l : List Nat) : List (List Nat) :=
  if l.length < SECTOR_SIZE then []
  else l.take SECTOR_SIZE :: fullSectors (l.drop SECTOR_SIZE)
termination_by l.length
decreasing_by all_goals (simp only [List.length_drop, SECTOR_SIZE] at *; omega)

/-- Validity in the words of claim C6: the file is at least 32 KiB plus one
2048-byte sector long and, among the sectors scanned from offset 32 KiB up
to (not including) the first sector whose identifier is none of the seven
known markers, at least one sector each carries BEA01, NSR02-or-NSR03 and
TEA01. -/
def specValidUdf (file : List Nat) : Bool :=
  decide (HEADER_SIZE + SECTOR_SIZE ≤ file.length) &&
    (((fullSectors (file.drop HEADER_SIZE)).takeWhile isKnownSector).any isBeaSector &&
     ((fullSectors (file.drop HEADER_SIZE)).takeWhile isKnownSector).any isNsrSector &&
     ((fullSectors (file.drop HEADER_SIZE)).takeWhile isKnownSector).any isTeaSector)

lemma isBea_not_nsr {s : List Nat} (h : isBeaSector s = true) :
    isNsrSector s = false := by
  unfold isBeaSector at h
  unfold isNsrSector
  rw [eq_of_beq h]
  decide

lemma isBea_not_tea {s : List Nat} (h : isBeaSector s = true) :
    isTeaSector s = false := by
  unfold isBeaSector at h
  unfold isTeaSector
  rw [eq_of_beq h]
  decide

lemma isNsr_not_bea {s : List Nat} (h : isNsrSector s = true) :
    isBeaSector s = false := by
  unfold isNsrSector at h
  unfold isBeaSector
  rcases Bool.or_eq_true_iff.mp h with h1 | h1 <;> rw [eq_of_beq h1] <;> decide

lemma isNsr_not_tea {s : List Nat} (h : isNsrSector s = true) :
    isTeaSector s = false := by
  unfold isNsrSector at h
  unfold isTeaSector
  rcases Bool.or_eq_true_iff.mp h with h1 | h1 <;> rw [eq_of_beq h1] <;> decide

lemma isTea_not_bea {s : List Nat} (h : isTeaSector s = true) :
    isBeaSector s = false := by
  unfold isTeaSector at h
  unfold isBeaSector
  rw [eq_of_beq h]
  decide

lemma isTea_not_nsr {s : List Nat} (h : isTeaSector s = true) :
    isNsrSector s = false := by
  unfold isTeaSector at h
  unfold isNsrSector
  rw [eq_of_beq h]
  decide

lemma isIgnored_not_bea {s : List Nat} (h : isIgnoredSector s = true) :
    isBeaSector s = false := by
  unfold isIgnoredSector at h
  unfold isBeaSector
  rcases Bool.or_eq_true_iff.mp h with h1 | h1
  · rcases Bool.or_eq_true_iff.mp h1 with h2 | h2 <;> rw [eq_of_beq h2] <;> decide
  · rw [eq_of_beq h1]
    decide

lemma isIgnored_not_nsr {s : List Nat} (h : isIgnoredSector s = true) :
    isNsrSector s = false := by
  unfold isIgnoredSector at h
  unfold isNsrSector
  rcases Bool.or_eq_true_iff.mp h with h1 | h1
  · rcases Bool.or_eq_true_iff.mp h1 with h2 | h2 <;> rw [eq_of_beq h2] <;> decide
  · rw [eq_of_beq h1]
    decide

lemma isIgnored_not_tea {s : List Nat} (h : isIgnoredSector s = true) :
    isTeaSector s = false := by
  unfold isIgnoredSector at h
  unfold isTeaSector
  rcases Bool.or_eq_true_iff.mp h with h1 | h1
  · rcases Bool.or_eq_true_iff.mp h1 with h2 | h2 <;> rw [eq_of_beq h2] <;> decide
  · rw [eq_of_beq h1]
    decide

/-- Loop characterization: the scan with flag state equals the flag seeds
disjoined with marker membership over the known-marker run of the sector
list. -/
lemma validLoop_eq (n : Nat) : ∀ l : List Nat, l.length ≤ n → ∀ bea vsd tea : Bool,
    validLoop l bea vsd tea =
      ((bea || ((fullSectors l).takeWhile isKnownSector).any isBeaSector) &&
       (vsd || ((fullSectors l).takeWhile isKnownSector).any isNsrSector) &&
       (tea || ((fullSectors l).takeWhile isKnownSector).any isTeaSector)) := by
  induction n with
  | zero =>
    intro l hl bea vsd tea
    have hsmall : l.length < SECTOR_SIZE := by
      have : l.length = 0 := Nat.le_zero.mp hl
      rw [this]
      decide
    rw [validLoop, fullSectors, if_pos hsmall, if_pos hsmall]
    simp
  | succ n ih =>
    intro l hl bea vsd tea
    by_cases hsmall : l.length < SECTOR_SIZE
    · rw [validLoop, fullSectors, if_pos hsmall, if_pos hsmall]
      simp
    · have hrec : (l.drop SECTOR_SIZE).length ≤ n := by
        rw [List.length_drop]
        have h2 : (2048 : Nat) ≤ l.length := by
          simpa [SECTOR_SIZE] using Nat.not_lt.mp hsmall
        have hS : SECTOR_SIZE = 2048 := rfl
        omega
      rw [validLoop, fullSectors, if_neg hsmall, if_neg hsmall]
      by_cases hb : isBeaSector (l.take SECTOR_SIZE) = true
      · rw [if_pos hb,
          List.takeWhile_cons_of_pos (by simp [isKnownSector, hb]),
          ih _ hrec]
        simp [List.any_cons, hb, isBea_not_nsr hb, isBea_not_tea hb]
      · rw [if_neg hb]
        by_cases hn : isNsrSector (l.take SECTOR_SIZE) = true
        · rw [if_pos hn,
            List.takeWhile_cons_of_pos (by simp [isKnownSector, hn]),
            ih _ hrec]
          simp [List.any_cons, hn, isNsr_not_bea hn, isNsr_not_tea hn]
        · rw [if_neg hn]
          by_cases ht : isTeaSector (l.take SECTOR_SIZE) = true
          · rw [if_pos ht,
              List.takeWhile_cons_of_pos (by simp [isKnownSector, ht]),
              ih _ hrec]
            simp [List.any_cons, ht, isTea_not_bea ht, isTea_not_nsr ht]
          · rw [if_neg ht]
            by_cases hg : isIgnoredSector (l.take SECTOR_SIZE) = true
            · rw [if_pos hg,
                List.takeWhile_cons_of_pos (by simp [isKnownSector, hg]),
                ih _ hrec]
              simp [List.any_cons, isIgnored_not_bea hg, isIgnored_not_nsr hg,
                isIgnored_not_tea hg]
            · rw [if_neg hg,
                List.takeWhile_cons_of_neg (by simp [isKnownSector, hb, hn, ht, hg])]
              simp

/-- C6: is_valid_udf returns True exactly under the condition of claim C6,
and being a total Bool-valued function it never raises. -/
theorem c6_is_valid_udf (file : List Nat) : is_valid_udf file = specValidUdf file := by
  unfold is_valid_udf specValidUdf
  by_cases h : file.length < HEADER_SIZE + SECTOR_SIZE
  · rw [if_pos h]
    have hn : ¬ HEADER_SIZE + SECTOR_SIZE ≤ file.length := by omega
    simp [hn]
  · rw [if_neg h, validLoop_eq (file.drop HEADER_SIZE).length _ le_rfl]
    have hle : HEADER_SIZE + SECTOR_SIZE ≤ file.length := Nat.not_lt.mp h
    simp [hle]

/-- MAX_INT of read_udf.py line 41 (a 4-byte signed int maximum), used by
load_extents as the sentinel partition value of a cooked extent. -/
def MAX_INT : Nat := 2 ^ 31 - 1

/-- CookedExtent of lines 566-571. -/
structure CookedExtent where
  file_content_offset : Nat
  partition : Nat
  start_pos : Nat
  length : Nat
  deriving DecidableEq, Repr

/-- The three FileEntry fields FileContentBuffer reads: the allocation type
(low two bits of the ICB tag flags, line 560), the allocation-descriptor
byte region (line 525) and information_length (line 513). -/
structure FileEntryData where
  allocation_type : Nat
  allocation_descriptors : List Nat
  information_length : Nat
  deriving DecidableEq, Repr

/-- Short-descriptor walk of load_extents (lines 606-619): consume 8-byte
Short Allocation Descriptors (low 30 bits of the first word are the extent
length, top 2 bits the flags, lines 574-580) until the buffer ends or an
entry has extent length 0; nonzero flags raise; each entry yields a
CookedExtent at the running file position, with the sentinel partition and
start position location * block_size.  A trailing fragment shorter than 8
bytes would fail the BaseTag size assertion. -/
def loadShortExtents (blockSize : Nat) (buffer : List Nat) (filePos : Nat) :
    Except PyErr (List CookedExtent) :=
  if buffer.isEmpty then .ok []
  else if buffer.length < 8 then .error .bufferTooSmall
  else
    let rawLength := to_uint32 buffer 0
    let extentLocation := to_uint32 buffer 4
    let extentLength := rawLength &&& 0x3FFFFFFF
    let flags := (rawLength >>> 30) &&& 0x3
    if extentLength = 0 then .ok []
    else if flags ≠ 0 then .error .extentFlagsNotZero
    else
      match loadShortExtents blockSize (buffer.drop 8) (filePos + extentLength) with
      | .ok extents =>
        .ok (⟨filePos, MAX_INT, extentLocation * blockSize, extentLength⟩ :: extents)
      | .error e => .error e
termination_by buffer.length
decreasing_by simp only [List.length_drop]; omega

/-- load_extents (lines 600-625), the whole body of FileContentBuffer
construction (the constructor only stores its arguments and calls it): the
short-descriptor walk for allocation type 0, and raise NotImplementedError
for embedded (3, line 621), long (1, line 623) and every other type. -/
def load_extents (fe : FileEntryData) (blockSize : Nat) :
    Except PyErr (List CookedExtent) :=
  if fe.allocation_type = 0 then
    loadShortExtents blockSize fe.allocation_descriptors 0
  else if fe.allocation_type = 3 then .error .notImplemented
  else if fe.allocation_type = 1 then .error .notImplemented
  else .error .notImplemented

/-- find_extent (lines 671-676): the first extent whose end lies beyond pos. -/
def find_extent (extents : List CookedExtent) (pos : Nat) : Option CookedExtent :=
  extents.find? (fun e => pos < e.file_content_offset + e.length)

/-- While loop of read_from_extents (lines 649-669).  The buffer variable is
overwritten by every file read (line 663: buffer = ...read(to_read)), never
extended, and it is what the function returns; totalRead alone accumulates.
A None from find_extent would hit an attribute access on None and a partition
other than the sentinel would hit the nonexistent self.logical_partitions
attribute, both AttributeError.  The extent offset subtraction and the reads
use Nat truncation, which agrees with the Python ints whenever find_extent
returns an extent starting at or before the requested position, as it does
for the contiguous extents load_extents builds.  The fuel bounds iterations:
every continuing iteration grows totalRead by at least one (an empty chunk
returns), so tot + 1 iterations always reach the exit. -/
def readExtentsLoop (extents : List CookedExtent) (partStart : Nat) (file : List Nat)
    (pos tot : Nat) : Nat → Nat → List Nat → Except PyErr (List Nat)
  | 0, _, buffer => .ok buffer
  | fuel + 1, totalRead, buffer =>
    if totalRead < tot then
      match find_extent extents (pos + totalRead) with
      | none => .error .attributeError
      | some extent =>
        let extentOffset := pos + totalRead - extent.file_content_offset
        let toRead := min (tot - totalRead) (extent.length - extentOffset)
        if extent.partition ≠ MAX_INT then .error .attributeError
        else
          let chunk := (file.drop (extent.start_pos + extentOffset + partStart)).take toRead
          if chunk.length = 0 then .ok chunk
          else readExtentsLoop extents partStart file pos tot fuel (totalRead + chunk.length) chunk
    else .ok buffer

/-- read_from_extents (lines 644-669): total_to_read = min(capacity - pos,
count) (zero when pos is at or past capacity, as in Python where the min is
then negative and the loop body never runs), then the chunk loop starting
from an empty buffer. -/
def read_from_extents (capacity : Nat) (extents : List CookedExtent) (partStart : Nat)
    (file : List Nat) (pos offset count : Nat) : Except PyErr (List Nat) :=
  let tot := min (capacity - pos) count
  readExtentsLoop extents partStart file pos tot (tot + 1) 0 []

/-- Embedded branch of FileContentBuffer.read (lines 633-640): positions past
the allocation-descriptor region give an empty result, otherwise the copy of
min(len(src) - pos, count) source bytes from pos.  The offset parameter is
where the copy lands in the destination list; since the destination starts
empty, Python slice assignment appends the same bytes for every offset, so
the result does not depend on it. -/
def readEmbedded (fe : FileEntryData) (pos offset count : Nat) : List Nat :=
  if fe.allocation_descriptors.length < pos then []
  else (fe.allocation_descriptors.drop pos).take
    (min (fe.allocation_descriptors.length - pos) count)

/-- FileContentBuffer.read (lines 631-642): dispatch between the embedded
branch and read_from_extents on the allocation type; capacity is the
information_length of the file entry (lines 627-629). -/
def fcb_read (fe : FileEntryData) (extents : List CookedExtent) (partStart : Nat)
    (file : List Nat) (pos offset count : Nat) : Except PyErr (List Nat) :=
  if fe.allocation_type = 3 then .ok (readEmbedded fe pos offset count)
  else read_from_extents fe.information_length extents partStart file pos offset count

/-- A file entry with embedded (type 3) allocation and five inline bytes. -/
def c3fe : FileEntryData := ⟨3, bytesOf "HELLO", 5⟩

/-- C3 counterexample: for a file entry with embedded allocation type,
constructing the File Content Buffer does not succeed: load_extents, which
the constructor always runs, raises NotImplementedError (line 621). -/
theorem c3_counterexample :
    c3fe.allocation_type = 3 ∧
    load_extents c3fe 2048 = .error .notImplemented :=
  ⟨rfl, rfl⟩

/-- C3 (amended): for every file entry with embedded allocation type,
constructing the File Content Buffer fails with NotImplementedError; the
read method itself (dead code behind that constructor, lines 633-640) would
return the slice of min(n, length - pos) inline bytes starting at pos from
the trailing allocation-descriptor region. -/
theorem c3_amended (fe : FileEntryData) (blockSize pos offset count : Nat)
    (extents : List CookedExtent) (partStart : Nat) (file : List Nat)
    (h : fe.allocation_type = 3) :
    load_extents fe blockSize = .error .notImplemented ∧
    fcb_read fe extents partStart file pos offset count =
      .ok ((fe.allocation_descriptors.drop pos).take
        (min (fe.allocation_descriptors.length - pos) count)) := by
  constructor
  · unfold load_extents
    rw [if_neg (by omega), if_pos h]
  · unfold fcb_read readEmbedded
    rw [if_pos h]
    by_cases hp : fe.allocation_descriptors.length < pos
    · rw [if_pos hp, List.drop_eq_nil_of_le (le_of_lt hp), List.take_nil]
    · rw [if_neg hp]

/-- Witness for c3_amended at the concrete embedded entry: reading 3 bytes
from position 1 of the 5 inline bytes HELLO yields ELL. -/
theorem c3_amended_witness :
    load_extents c3fe 2048 = .error .notImplemented ∧
    fcb_read c3fe [] 0 [] 1 0 3 = .ok (bytesOf "ELL") := by
  have h := c3_amended c3fe 2048 1 0 3 [] 0 [] rfl
  refine ⟨h.1, ?_⟩
  rw [h.2]
  rfl

/-- Disc bytes for the C4 run: extent one holds bytes 10, 11 at physical
positions 0..1, extent two holds bytes 20, 21 at physical positions
100..101. -/
def c4file : List Nat := [10, 11] ++ List.replicate 98 0 ++ [20, 21]

/-- Two contiguous cooked extents of two bytes each, as load_extents builds
for two short descriptors: file offsets 0 and 2, physical starts 0 and 100. -/
def c4extents : List CookedExtent := [⟨0, MAX_INT, 0, 2⟩, ⟨2, MAX_INT, 100, 2⟩]

/-- C4 evaluation at the failing input: a 4-byte read over the two 2-byte
extents walks both extents (totalRead reaches 4) but returns only the bytes
of the second, last-read extent, not the concatenation of the spanned
extents that the loop structure sets out to assemble. -/
theorem c4_overwrite :
    read_from_extents 4 c4extents 0 c4file 0 0 4 = .ok [20, 21] ∧
    ([20, 21] : List Nat) ≠ [10, 11, 20, 21] := by
  refine ⟨?_, by decide⟩
  rfl

end PS2
